import Mathlib

/-!
# Verification of the tandem instrumentation layer

A shallow embedding of the PhET-iO tandem registry, identifier utilities,
parametric IO-type factories, dynamic groups and the event-stream stack,
translated from the JavaScript sources, together with proofs of the
specification's testable properties.

Strings are modelled as `List Char` (a JS string is a sequence of UTF-16
code units; all identifiers here are ASCII). JS assertion failures are
modelled by `Option`-valued operations returning `none`.
-/

namespace TandemSpec

/-! ## Identifier utilities — src/js/PhetioIDUtils.js -/

/-- `var SEPARATOR = '.'` -/
def SEPARATOR : Char := '.'

/-- `var GROUP_SEPARATOR = '_'` -/
def GROUP_SEPARATOR : Char := '_'

namespace PhetioIDUtils

/-- Decomposition of an identifier at its *last* separator.  This computes, in
one pass, `substring(0, lastIndexOf(SEPARATOR))` and
`substring(lastIndexOf(SEPARATOR) + 1, length)`; it returns `none` exactly when
`lastIndexOf(SEPARATOR) === -1`, i.e. when no separator occurs. -/
def splitAtLastSep : List Char → Option (List Char × List Char)
  | [] => none
  | c :: rest =>
    match splitAtLastSep rest with
    | some (p, s) => some (c :: p, s)
    | none => if c = SEPARATOR then some ([], rest) else none

/-- `append: function( phetioID, ...componentNames )`: for each component name,
asserts it contains no separator, then appends `SEPARATOR + componentName`.
An assertion failure is `none`. -/
def append (phetioID : List Char) : List (List Char) → Option (List Char)
  | [] => some phetioID
  | componentName :: rest =>
    if SEPARATOR ∈ componentName then none
    else append (phetioID ++ SEPARATOR :: componentName) rest

/-- `getComponentName: function( phetioID )`: asserts `phetioID.length > 0`;
returns the whole id when it has no separator, otherwise the substring after
the last separator. -/
def getComponentName (phetioID : List Char) : Option (List Char) :=
  if phetioID.length = 0 then none
  else
    match splitAtLastSep phetioID with
    | none => some phetioID
    | some (_, s) => some s

/-- `getParentID: function( phetioID )`: asserts the id has a separator
(`indexOfLastSeparator !== -1`); returns the substring before the last
separator. -/
def getParentID (phetioID : List Char) : Option (List Char) :=
  match splitAtLastSep phetioID with
  | none => none
  | some (p, _) => some p

/-- JS `String.prototype.indexOf` specialised to a single character: index of
the first occurrence, `-1` if absent. -/
def indexOf : List Char → Char → Int
  | [], _ => -1
  | a :: rest, c =>
    if a = c then 0
    else
      let r := indexOf rest c
      if r = -1 then -1 else r + 1

/-- `isDynamicElement: function( phetioID ) { return phetioID.indexOf( GROUP_SEPARATOR ) >= 0; }` -/
def isDynamicElement (phetioID : List Char) : Bool :=
  decide (indexOf phetioID GROUP_SEPARATOR ≥ 0)

/-! ### Lemmas about the identifier utilities -/

theorem splitAtLastSep_none_of_not_mem {l : List Char} (h : SEPARATOR ∉ l) :
    splitAtLastSep l = none := by
  induction l with
  | nil => rfl
  | cons c rest ih =>
    have hc : c ≠ SEPARATOR := fun hceq => h (hceq ▸ List.mem_cons_self c rest)
    have hrest : SEPARATOR ∉ rest := fun hm => h (List.mem_cons_of_mem c hm)
    simp [splitAtLastSep, ih hrest, hc]

theorem splitAtLastSep_append {p c : List Char} (h : SEPARATOR ∉ c) :
    splitAtLastSep (p ++ SEPARATOR :: c) = some (p, c) := by
  induction p with
  | nil => simp [splitAtLastSep, splitAtLastSep_none_of_not_mem h]
  | cons a p' ih => simp [splitAtLastSep, ih]

theorem indexOf_ge_neg_one (l : List Char) (c : Char) : -1 ≤ indexOf l c := by
  induction l with
  | nil => simp [indexOf]
  | cons a rest ih =>
    by_cases ha : a = c
    · simp [indexOf, ha]
    · simp only [indexOf, if_neg ha]
      by_cases hr : indexOf rest c = -1
      · simp [hr]
      · simp only [if_neg hr]
        omega

theorem indexOf_eq_neg_one_iff (l : List Char) (c : Char) :
    indexOf l c = -1 ↔ c ∉ l := by
  induction l with
  | nil => simp [indexOf]
  | cons a rest ih =>
    by_cases ha : a = c
    · simp [indexOf, ha]
    · simp only [indexOf, if_neg ha]
      by_cases hr : indexOf rest c = -1
      · rw [if_pos hr]
        constructor
        · intro _ hmem
          rcases List.mem_cons.mp hmem with h1 | h2
          · exact ha h1.symm
          · exact (ih.mp hr) h2
        · intro _; rfl
      · rw [if_neg hr]
        have hge := indexOf_ge_neg_one rest c
        constructor
        · intro h1
          exact absurd h1 (by omega)
        · intro h2
          exact absurd (ih.mpr (fun hm => h2 (List.mem_cons_of_mem a hm))) hr

theorem indexOf_ge_zero_iff (l : List Char) (c : Char) :
    0 ≤ indexOf l c ↔ c ∈ l := by
  have hge := indexOf_ge_neg_one l c
  have hiff := indexOf_eq_neg_one_iff l c
  constructor
  · intro h
    by_contra hmem
    have := hiff.mpr hmem
    omega
  · intro hmem
    by_cases h1 : indexOf l c = -1
    · exact absurd (hiff.mp h1) (by simp [hmem])
    · omega

end PhetioIDUtils

end TandemSpec

/-! ## Claim C1 -/

open TandemSpec PhetioIDUtils in
/-- **C1.** For every parent identifier `p` and component name `c` with no
separator, `getParentID (append p [c]) = p` and
`getComponentName (append p [c]) = c`; `append` fails (assertion) as soon as a
supplied component name contains the separator, and `getParentID` fails when
the identifier contains no separator. -/
theorem C1_id_utils_inverse (p c : List Char) (hc : SEPARATOR ∉ c) :
    (append p [c] = some (p ++ SEPARATOR :: c) ∧
      getParentID (p ++ SEPARATOR :: c) = some p ∧
      getComponentName (p ++ SEPARATOR :: c) = some c) ∧
    (∀ (q : List Char) (pre post : List (List Char)) (bad : List Char),
      SEPARATOR ∈ bad → (∀ x ∈ pre, SEPARATOR ∉ x) →
        append q (pre ++ bad :: post) = none) ∧
    (∀ id : List Char, SEPARATOR ∉ id → getParentID id = none) := by
  refine ⟨⟨?_, ?_, ?_⟩, ?_, ?_⟩
  · simp [append, hc]
  · simp [getParentID, splitAtLastSep_append hc]
  · have hne : (p ++ SEPARATOR :: c).length ≠ 0 := by simp
    simp [getComponentName, splitAtLastSep_append hc, hne]
  · intro q pre post bad hbad hpre
    induction pre generalizing q with
    | nil => simp [append, hbad]
    | cons x xs ih =>
      have hx : SEPARATOR ∉ x := hpre x (List.mem_cons_self x xs)
      simp only [List.cons_append, append, if_neg hx]
      exact ih _ (fun y hy => hpre y (List.mem_cons_of_mem x hy))
  · intro id hid
    simp [getParentID, splitAtLastSep_none_of_not_mem hid]

open TandemSpec PhetioIDUtils in
/-- Witness for C1 at `p = "myScreen.myControlPanel"`, `c = "myComboBox"`
(the example from the source documentation). -/
theorem C1_id_utils_inverse_witness :
    SEPARATOR ∉ "myComboBox".toList ∧
    append "myScreen.myControlPanel".toList ["myComboBox".toList]
      = some "myScreen.myControlPanel.myComboBox".toList ∧
    getParentID "myScreen.myControlPanel.myComboBox".toList
      = some "myScreen.myControlPanel".toList ∧
    getComponentName "myScreen.myControlPanel.myComboBox".toList
      = some "myComboBox".toList := by
  have h : SEPARATOR ∉ "myComboBox".toList := by decide
  have := (C1_id_utils_inverse "myScreen.myControlPanel".toList "myComboBox".toList h).1
  exact ⟨h, this.1, this.2.1, this.2.2⟩

open TandemSpec PhetioIDUtils in
/-- **C9.** `isDynamicElement id` is true iff `id` contains the group-index
separator anywhere; in particular it is true on `"sim.screen.electron_3"` and
false on `"sim.screen.model"`. -/
theorem C9_isDynamicElement_iff :
    (∀ id : List Char, isDynamicElement id = true ↔ GROUP_SEPARATOR ∈ id) ∧
    isDynamicElement "sim.screen.electron_3".toList = true ∧
    isDynamicElement "sim.screen.model".toList = false := by
  refine ⟨?_, by decide, by decide⟩
  intro id
  simp only [isDynamicElement, decide_eq_true_eq]
  exact indexOf_ge_zero_iff id GROUP_SEPARATOR

namespace TandemSpec

/-! ## The Tandem registry — src/js/Tandem.js

The registry's module-level mutable state (`launched`, `staticInstances`, the
`instanceListeners` notifications, and the `phet.chipper.brand === 'phet-io'`
environment check) is modelled as an explicit `RegistryState` record.
Notifications to the instance listeners are recorded as an ordered log. -/

/-- Constructor options for `function Tandem( id, options )`; `none` means the
key was absent from the options hash (so the `_.extend` default applies). -/
structure TandemOptions where
  staticOpt : Option Bool
  requiredOpt : Option Bool
  enabledOpt : Option Bool
deriving DecidableEq

/-- A `Tandem` instance: `this.id`, `this.static`,
`this.tandemRequiredButNotSupplied`, `this.enabled`. -/
structure Tandem where
  id : List Char
  static : Bool
  tandemRequiredButNotSupplied : Bool
  enabled : Bool
deriving DecidableEq

/-- `function Tandem( id, options )` with the `_.extend` defaults
`{ static: false, tandemRequiredButNotSupplied: false, enabled: true }`. -/
def Tandem.ctor (id : List Char) (o : TandemOptions) : Tandem :=
  { id := id
    static := o.staticOpt.getD false
    tandemRequiredButNotSupplied := o.requiredOpt.getD false
    enabled := o.enabledOpt.getD true }

/-- One element of the module-level `staticInstances` array:
`{ tandem: this, instance: instance, type: type }`.  The JS `instance` and
`type` objects are opaque to Tandem.js and are modelled as numeric handles;
every modelled type has a `typeName`, so the `type && type.typeName` assertion
is always satisfied. -/
structure StaticEntry where
  tandem : Tandem
  inst : Nat
  type : Nat
deriving DecidableEq

/-- The module-level mutable state of Tandem.js plus the listener-visible
event logs. -/
structure RegistryState where
  /-- `window.phet && window.phet.chipper && phet.chipper.brand === 'phet-io'` -/
  brandPhetio : Bool
  /-- `var launched = false` -/
  launched : Bool
  /-- `var staticInstances = []` -/
  staticInstances : List StaticEntry
  /-- ordered log of `instanceListeners[i].addInstance( id, instance, type )` calls -/
  notifications : List (List Char × Nat × Nat)
  /-- ordered log of `instanceListeners[i].removeInstance( id, instance )` calls -/
  removals : List (List Char × Nat)
deriving DecidableEq

/-- `Tandem.prototype.addInstance( instance, type )`.  Guarded by the brand
check and `this.enabled`; asserts `!this.tandemRequiredButNotSupplied`; a
static tandem before launch is pushed onto `staticInstances`, otherwise all
instance listeners are notified. -/
def Tandem.addInstance (s : RegistryState) (t : Tandem) (inst ty : Nat) :
    Option RegistryState :=
  if s.brandPhetio && t.enabled then
    if t.tandemRequiredButNotSupplied then none
    else if t.static && !s.launched then
      some { s with staticInstances := s.staticInstances ++ [⟨t, inst, ty⟩] }
    else
      some { s with notifications := s.notifications ++ [(t.id, inst, ty)] }
  else some s

/-- `Tandem.prototype.removeInstance( instance )`: when running as phet-io and
enabled, notifies every instance listener; otherwise does nothing.  Note that
the source contains no assertion here: it never fails. -/
def Tandem.removeInstance (s : RegistryState) (t : Tandem) (inst : Nat) :
    Option RegistryState :=
  if s.brandPhetio && t.enabled then
    some { s with removals := s.removals ++ [(t.id, inst)] }
  else some s

/-- The `while ( staticInstances.length > 0 )` loop body of `Tandem.launch`:
shift the first entry off the queue (FIFO) and re-dispatch it through
`tandem.addInstance`. -/
def drainStatic : List StaticEntry → RegistryState → Option RegistryState
  | [], s => some s
  | e :: rest, s =>
    match Tandem.addInstance s e.tandem e.inst e.type with
    | none => none
    | some s' => drainStatic rest s'

/-- `Tandem.launch`: asserts `!launched`, sets `launched = true`, then drains
the pending queue front-first. -/
def Tandem.launch (s : RegistryState) : Option RegistryState :=
  if s.launched then none
  else drainStatic s.staticInstances { s with launched := true, staticInstances := [] }

/-- `Tandem.prototype.createTandem( id, options )`: asserts the child id is a
non-empty string, composes the identifier (no leading separator when the
parent id is empty), and extends the options with
`{ static: this.static, enabled: this.enabled }` defaults before calling the
constructor. -/
def Tandem.createTandem (t : Tandem) (childId : List Char) (o : TandemOptions) :
    Option Tandem :=
  if childId.length = 0 then none
  else
    let s := if t.id.length > 0 then t.id ++ SEPARATOR :: childId else childId
    some (Tandem.ctor s
      { o with
        staticOpt := some (o.staticOpt.getD t.static)
        enabledOpt := some (o.enabledOpt.getD t.enabled) })

/-- Drain lemma: when the brand is phet-io and every queued entry is enabled
and not required-but-missing, draining in a launched state succeeds and
notifies listeners of exactly the queued entries, front-first. -/
theorem drainStatic_notifies (es : List StaticEntry) (s : RegistryState)
    (hbrand : s.brandPhetio = true) (hlaunched : s.launched = true)
    (hes : ∀ e ∈ es, e.tandem.enabled = true ∧
      e.tandem.tandemRequiredButNotSupplied = false) :
    drainStatic es s = some { s with
      notifications :=
        s.notifications ++ es.map (fun e => (e.tandem.id, e.inst, e.type)) } := by
  induction es generalizing s with
  | nil => simp [drainStatic]
  | cons e rest ih =>
    obtain ⟨hen, hreq⟩ := hes e (List.mem_cons_self e rest)
    have hstep : Tandem.addInstance s e.tandem e.inst e.type =
        some { s with notifications := s.notifications ++ [(e.tandem.id, e.inst, e.type)] } := by
      simp [Tandem.addInstance, hbrand, hen, hreq, hlaunched]
    simp only [drainStatic, hstep]
    have hrest := ih
      { s with notifications := s.notifications ++ [(e.tandem.id, e.inst, e.type)] }
      hbrand hlaunched (fun x hx => hes x (List.mem_cons_of_mem e hx))
    rw [hrest]
    simp

end TandemSpec

open TandemSpec in
/-- **C3.** From an unlaunched phet-io state whose pending queue holds entries
(each enabled and with a supplied tandem, the invariant under which entries
are ever queued), `launch` succeeds, notifies listeners of exactly the queued
entries in FIFO order, and empties the queue; launching again fails
(assertion); and after launch, `addInstance` on an enabled static tandem
notifies listeners directly and leaves the queue empty. -/
theorem C3_launch_fifo (s : RegistryState)
    (hbrand : s.brandPhetio = true) (hlaunched : s.launched = false)
    (hq : ∀ e ∈ s.staticInstances, e.tandem.enabled = true ∧
      e.tandem.tandemRequiredButNotSupplied = false) :
    ∃ s', Tandem.launch s = some s' ∧
      s'.notifications = s.notifications ++
        s.staticInstances.map (fun e => (e.tandem.id, e.inst, e.type)) ∧
      s'.staticInstances = [] ∧
      s'.launched = true ∧
      Tandem.launch s' = none ∧
      (∀ t inst ty, t.static = true → t.enabled = true →
        t.tandemRequiredButNotSupplied = false →
        Tandem.addInstance s' t inst ty =
          some { s' with notifications := s'.notifications ++ [(t.id, inst, ty)] }) := by
  have hlstep : Tandem.launch s =
      drainStatic s.staticInstances { s with launched := true, staticInstances := [] } := by
    simp [Tandem.launch, hlaunched]
  rw [drainStatic_notifies s.staticInstances
    { s with launched := true, staticInstances := [] } hbrand rfl hq] at hlstep
  refine ⟨_, hlstep, by simp, rfl, rfl, ?_, ?_⟩
  · simp [Tandem.launch]
  · intro t inst ty hstatic hen hreq
    simp [Tandem.addInstance, hbrand, hen, hreq]

open TandemSpec in
/-- Witness for C3: three static entries `a`, `b`, `c` queued before launch
are flushed in exactly that order, the queue is drained, and a second launch
fails. -/
theorem C3_launch_fifo_witness :
    (let ta : Tandem := ⟨"sim.a".toList, true, false, true⟩
     let tb : Tandem := ⟨"sim.b".toList, true, false, true⟩
     let tc : Tandem := ⟨"sim.c".toList, true, false, true⟩
     let s : RegistryState :=
       ⟨true, false, [⟨ta, 0, 10⟩, ⟨tb, 1, 11⟩, ⟨tc, 2, 12⟩], [], []⟩
     ∃ s', Tandem.launch s = some s' ∧
       s'.notifications = [("sim.a".toList, 0, 10), ("sim.b".toList, 1, 11),
         ("sim.c".toList, 2, 12)] ∧
       s'.staticInstances = [] ∧ Tandem.launch s' = none) := by
  obtain ⟨s', h1, h2, h3, _, h5, _⟩ :=
    C3_launch_fifo ⟨true, false,
      [⟨⟨"sim.a".toList, true, false, true⟩, 0, 10⟩,
       ⟨⟨"sim.b".toList, true, false, true⟩, 1, 11⟩,
       ⟨⟨"sim.c".toList, true, false, true⟩, 2, 12⟩], [], []⟩
      rfl rfl (by decide)
  exact ⟨s', h1, by simpa using h2, h3, h5⟩

open TandemSpec in
/-- **C7 counterexample.** In a fresh phet-io registry state in which no entry
was ever added (all logs empty), `removeInstance` on an enabled tandem does
*not* fail: the source contains no assertion, it simply notifies the instance
listeners.  This refutes the claim that `removeInstance` on a never-added
entry fails with an assertion. -/
theorem C7_removeInstance_counterexample :
    Tandem.removeInstance ⟨true, true, [], [], []⟩
        ⟨"sim.neverAdded".toList, false, false, true⟩ 0
      = some ⟨true, true, [], [], [("sim.neverAdded".toList, 0)]⟩ ∧
    Tandem.removeInstance ⟨true, true, [], [], []⟩
        ⟨"sim.neverAdded".toList, false, false, true⟩ 0 ≠ none := by
  constructor
  · simp [Tandem.removeInstance]
  · simp [Tandem.removeInstance]

open TandemSpec in
/-- **C7 (amended).** `removeInstance` never fails, whether or not the entry
was ever added: when running as phet-io with the tandem enabled it forwards
the removal to every instance listener, and otherwise it is a silent no-op. -/
theorem C7_removeInstance_never_fails (s : RegistryState) (t : Tandem) (inst : Nat) :
    Tandem.removeInstance s t inst =
      some (if s.brandPhetio && t.enabled then
        { s with removals := s.removals ++ [(t.id, inst)] } else s) := by
  by_cases h : s.brandPhetio && t.enabled
  · simp [Tandem.removeInstance, h]
  · simp [Tandem.removeInstance, h]

open TandemSpec in
/-- **C10.** `createTandem` requires a non-empty child name; the child's
`static` and `enabled` flags equal the parent's unless explicitly overridden
in the options, and when the parent's identifier is empty the child's
identifier is exactly the child name with no leading separator (otherwise it
is `parent.id + SEPARATOR + childId`). -/
theorem C10_createTandem_inherits (t : Tandem) (childId : List Char)
    (o : TandemOptions) (h : childId ≠ []) :
    ∃ child, Tandem.createTandem t childId o = some child ∧
      child.static = o.staticOpt.getD t.static ∧
      child.enabled = o.enabledOpt.getD t.enabled ∧
      (o.staticOpt = none → child.static = t.static) ∧
      (o.enabledOpt = none → child.enabled = t.enabled) ∧
      (t.id = [] → child.id = childId) ∧
      (t.id ≠ [] → child.id = t.id ++ SEPARATOR :: childId) := by
  have hlen : ¬ childId.length = 0 := by simpa using h
  refine ⟨Tandem.ctor (if t.id.length > 0 then t.id ++ SEPARATOR :: childId else childId)
      { o with staticOpt := some (o.staticOpt.getD t.static),
               enabledOpt := some (o.enabledOpt.getD t.enabled) },
    ?_, ?_, ?_, ?_, ?_, ?_, ?_⟩
  · simp [Tandem.createTandem, hlen]
  · simp [Tandem.ctor]
  · simp [Tandem.ctor]
  · intro ho; simp [Tandem.ctor, ho]
  · intro ho; simp [Tandem.ctor, ho]
  · intro hid; simp [Tandem.ctor, hid]
  · intro hid
    have : t.id.length > 0 := List.length_pos.mpr hid
    simp [Tandem.ctor, this]

open TandemSpec in
/-- Witness for C10: a root tandem with empty id and no option overrides
produces the child `"requiredTandem"` with no leading separator, inheriting
`static = false` and `enabled = true`. -/
theorem C10_createTandem_inherits_witness :
    ∃ child, Tandem.createTandem ⟨[], false, false, true⟩
        "requiredTandem".toList ⟨none, none, none⟩ = some child ∧
      child.id = "requiredTandem".toList ∧
      child.static = false ∧ child.enabled = true := by
  obtain ⟨child, heq, hs, he, _, _, hid, _⟩ :=
    C10_createTandem_inherits ⟨[], false, false, true⟩
      "requiredTandem".toList ⟨none, none, none⟩ (by decide)
  exact ⟨child, heq, hid rfl, by simpa using hs, by simpa using he⟩

namespace TandemSpec

/-! ## Dynamic groups — Group (src/unnamed/part_006)

A group member is modelled by the `componentName` of its `GroupMemberTandem`
(`prefix + GROUP_SEPARATOR + index`) together with its numeric index.  The
emitters are modelled as ordered logs; `member.dispose()` together with the
`memberDisposedEmitter.emit( member )` call is recorded in `disposedLog`. -/

/-- JS number-to-string for a nonnegative integer index (`'' + index`). -/
def natToChars (n : Nat) : List Char := Nat.toDigits 10 n

/-- A group member: the `componentName` of its tandem and its creation index. -/
structure Member where
  name : List Char
  index : Nat
deriving DecidableEq

/-- The mutable state of a `Group` instance. -/
structure GroupState where
  /-- `this.prefix` — e.g. `"electron"` -/
  prefixStr : List Char
  /-- `this.array` — live members in creation order (`push` appends) -/
  array : List Member
  /-- `this.groupElementIndex` — next index from the pool -/
  groupElementIndex : Nat
  /-- order in which members were disposed (`memberDisposedEmitter` log) -/
  disposedLog : List Member
deriving DecidableEq

/-- `createGroupMember( index, argsForCreateFunction )`: builds
`componentName = this.prefix + GROUP_SEPARATOR + index`, creates the member,
pushes it onto `this.array` and emits `memberCreatedEmitter`. -/
def Group.createGroupMember (g : GroupState) (index : Nat) : GroupState × Member :=
  let m : Member := ⟨g.prefixStr ++ GROUP_SEPARATOR :: natToChars index, index⟩
  ({ g with array := g.array ++ [m] }, m)

/-- `createNextMember( ...args )`:
`this.createGroupMember( this.groupElementIndex++, argsForCreateFunction )` —
the member is created at the *current* counter value, and the counter is
post-incremented. -/
def Group.createNextMember (g : GroupState) : GroupState × Member :=
  Group.createGroupMember { g with groupElementIndex := g.groupElementIndex + 1 }
    g.groupElementIndex

/-- `disposeGroupMember( member )`: `arrayRemove( this.array, member )`
(removes the first occurrence), emits `memberDisposedEmitter`, and disposes
the member. -/
def Group.disposeGroupMember (g : GroupState) (m : Member) : GroupState :=
  { g with array := g.array.erase m, disposedLog := g.disposedLog ++ [m] }

/-- The `while ( this.array.length > 0 )` loop of `clear()`, which disposes
`this.array[ this.array.length - 1 ]` each iteration.  The fuel argument
(the initial array length) bounds the loop; each iteration removes one
element, so the loop terminates with an empty array. -/
def Group.clearLoop : Nat → GroupState → GroupState
  | 0, g => g
  | n + 1, g =>
    match g.array.getLast? with
    | none => g
    | some m => Group.clearLoop n (Group.disposeGroupMember g m)

/-- `clear()`: dispose every live member last-first, then
`this.groupElementIndex = 0`. -/
def Group.clear (g : GroupState) : GroupState :=
  { Group.clearLoop g.array.length g with groupElementIndex := 0 }

/-- JS `parseInt( s, 10 )` on a digit string: parses the leading run of
decimal digits, `none` (NaN) when there is none. -/
def parseIntDec (l : List Char) : Option Nat :=
  let ds := l.takeWhile Char.isDigit
  if ds = [] then none
  else some (ds.foldl (fun a c => 10 * a + (c.toNat - 48)) 0)

/-- `parseInt( name.split( GROUP_SEPARATOR )[ 1 ], 10 )` — the numeric suffix
of a group-member tandem name. -/
def memberIndexOf (name : List Char) : Option Nat :=
  match (name.splitOn GROUP_SEPARATOR)[1]? with
  | none => none
  | some s => parseIntDec s

/-- `createCorrespondingGroupMember( phetioObject, ...args )`: extracts the
peer's numeric suffix, increments `this.groupElementIndex` *only when it
equals that index*, then creates the member at the peer's index.  The JS
`parseInt` NaN path (peer name without a numeric suffix) is modelled as
`none`; the claims only concern peers with a numeric suffix. -/
def Group.createCorrespondingGroupMember (g : GroupState) (peerName : List Char) :
    Option (GroupState × Member) :=
  match memberIndexOf peerName with
  | none => none
  | some index =>
    let g' := if g.groupElementIndex = index then
        { g with groupElementIndex := g.groupElementIndex + 1 } else g
    some (Group.createGroupMember g' index)

/-- Unfolding of the `clear()` loop on a duplicate-free array: members are
disposed in reverse creation order and the array is emptied. -/
theorem Group.clearLoop_reverse (l : List Member) (g : GroupState)
    (harr : g.array = l) (hnd : l.Nodup) :
    Group.clearLoop l.length g =
      { g with array := [], disposedLog := g.disposedLog ++ l.reverse } := by
  induction l using List.reverseRecOn generalizing g with
  | nil =>
    simp only [List.length_nil, Group.clearLoop, List.reverse_nil, List.append_nil]
    rw [← harr]
  | append_singleton xs x ih =>
    have hx : x ∉ xs := by
      rcases List.nodup_append.mp hnd with ⟨_, _, hdisj⟩
      exact fun hmem => hdisj hmem (List.mem_singleton_self x)
    have hlast : g.array.getLast? = some x := by
      rw [harr]; exact List.getLast?_concat xs
    have herase : g.array.erase x = xs := by
      rw [harr, List.erase_append_right _ hx, List.erase_cons_head, List.append_nil]
    rw [List.length_append, List.length_singleton]
    simp only [Group.clearLoop, hlast]
    have hrec := ih
      { g with
        array := xs
        disposedLog := g.disposedLog ++ [x] }
      (by simp) (List.Nodup.of_append_left hnd)
    simp only [Group.disposeGroupMember, herase]
    rw [hrec]
    simp

end TandemSpec

open TandemSpec in
/-- **C4.** `createNextMember` creates a member whose identifier is
`prefix + GROUP_SEPARATOR + (current counter value)` and post-increments the
counter; on a duplicate-free group, `clear` disposes all live members in
reverse creation order (LIFO), empties the array and resets the counter to
zero, so the next `createNextMember` again yields index 0. -/
theorem C4_group_clear_lifo (g : GroupState) (hnd : g.array.Nodup) :
    (∀ g' : GroupState, Group.createNextMember g' =
      ({ g' with
          array := g'.array ++
            [⟨g'.prefixStr ++ GROUP_SEPARATOR :: natToChars g'.groupElementIndex,
              g'.groupElementIndex⟩]
          groupElementIndex := g'.groupElementIndex + 1 },
        ⟨g'.prefixStr ++ GROUP_SEPARATOR :: natToChars g'.groupElementIndex,
          g'.groupElementIndex⟩)) ∧
    Group.clear g = { g with
      array := []
      disposedLog := g.disposedLog ++ g.array.reverse
      groupElementIndex := 0 } ∧
    (Group.createNextMember (Group.clear g)).2.index = 0 := by
  have hclear : Group.clear g = { g with
      array := []
      disposedLog := g.disposedLog ++ g.array.reverse
      groupElementIndex := 0 } := by
    unfold Group.clear
    rw [Group.clearLoop_reverse g.array g rfl hnd]
  refine ⟨fun g' => rfl, hclear, ?_⟩
  rw [hclear]
  rfl

open TandemSpec in
/-- Witness for C4: members `electron_0`, `electron_1`, `electron_2` created
in that order are disposed by `clear` in order `[electron_2, electron_1,
electron_0]`, the counter is reset, and the next `createNextMember` yields
index 0 again. -/
theorem C4_group_clear_lifo_witness :
    Group.clear ⟨"electron".toList,
        [⟨"electron_0".toList, 0⟩, ⟨"electron_1".toList, 1⟩,
         ⟨"electron_2".toList, 2⟩], 3, []⟩
      = ⟨"electron".toList, [], 0,
         [⟨"electron_2".toList, 2⟩, ⟨"electron_1".toList, 1⟩,
          ⟨"electron_0".toList, 0⟩]⟩ ∧
    (Group.createNextMember (Group.clear ⟨"electron".toList,
        [⟨"electron_0".toList, 0⟩, ⟨"electron_1".toList, 1⟩,
         ⟨"electron_2".toList, 2⟩], 3, []⟩)).2.index = 0 := by
  have h := C4_group_clear_lifo ⟨"electron".toList,
    [⟨"electron_0".toList, 0⟩, ⟨"electron_1".toList, 1⟩,
     ⟨"electron_2".toList, 2⟩], 3, []⟩ (by decide)
  refine ⟨?_, h.2.2⟩
  rw [h.2.1]
  decide

open TandemSpec in
/-- **C6 counterexample.** `createCorrespondingGroupMember` bumps the counter
only when it *equals* the peer's index.  Starting from a fresh group with
counter 0 and a peer with suffix 2, the member is created at index 2 but the
counter stays 0 — not strictly greater than 2 — and three subsequent
`createNextMember` calls produce a second live member claiming index 2
(`electron_2` appears twice in the live array). -/
theorem C6_corresponding_counterexample :
    Group.createCorrespondingGroupMember ⟨"electron".toList, [], 0, []⟩
        "electronNode_2".toList
      = some (⟨"electron".toList, [⟨"electron_2".toList, 2⟩], 0, []⟩,
              ⟨"electron_2".toList, 2⟩) ∧
    ¬ ((0 : Nat) > 2) ∧
    (Group.createNextMember (Group.createNextMember (Group.createNextMember
        ⟨"electron".toList, [⟨"electron_2".toList, 2⟩], 0, []⟩).1).1).1.array
      = [⟨"electron_2".toList, 2⟩, ⟨"electron_0".toList, 0⟩,
         ⟨"electron_1".toList, 1⟩, ⟨"electron_2".toList, 2⟩] ∧
    ¬ (Group.createNextMember (Group.createNextMember (Group.createNextMember
        ⟨"electron".toList, [⟨"electron_2".toList, 2⟩], 0, []⟩).1).1).1.array.Nodup := by
  decide

open TandemSpec in
/-- **C6 (amended).** For a peer whose tandem name has numeric suffix `i`,
`createCorrespondingGroupMember` creates the member at index `i`; the counter
is incremented only when it currently equals `i`, so it ends strictly greater
than `i` exactly when it started at least `i`; when the counter is below `i`
it is left unchanged (and a later `createNextMember` can then claim index `i`
a second time). -/
theorem C6_corresponding_member (g : GroupState) (peerName : List Char) (i : Nat)
    (h : memberIndexOf peerName = some i) :
    ∃ g' m, Group.createCorrespondingGroupMember g peerName = some (g', m) ∧
      m.index = i ∧
      m.name = g.prefixStr ++ GROUP_SEPARATOR :: natToChars i ∧
      g'.groupElementIndex =
        (if g.groupElementIndex = i then i + 1 else g.groupElementIndex) ∧
      (i ≤ g.groupElementIndex → i < g'.groupElementIndex) ∧
      (g.groupElementIndex < i → g'.groupElementIndex = g.groupElementIndex) := by
  by_cases hc : g.groupElementIndex = i
  · refine ⟨{ g with
        groupElementIndex := g.groupElementIndex + 1
        array := g.array ++ [⟨g.prefixStr ++ GROUP_SEPARATOR :: natToChars i, i⟩] },
      ⟨g.prefixStr ++ GROUP_SEPARATOR :: natToChars i, i⟩, ?_, rfl, rfl, ?_, ?_, ?_⟩
    · simp [Group.createCorrespondingGroupMember, h, hc, Group.createGroupMember]
    · simp [hc]
    · intro _
      show i < g.groupElementIndex + 1
      omega
    · intro hlt
      exact absurd hc (by omega)
  · refine ⟨{ g with
        array := g.array ++ [⟨g.prefixStr ++ GROUP_SEPARATOR :: natToChars i, i⟩] },
      ⟨g.prefixStr ++ GROUP_SEPARATOR :: natToChars i, i⟩, ?_, rfl, rfl, ?_, ?_, ?_⟩
    · simp [Group.createCorrespondingGroupMember, h, hc, Group.createGroupMember]
    · simp [hc]
    · intro hle
      show i < g.groupElementIndex
      omega
    · intro _
      rfl

open TandemSpec in
/-- Witness for the amended C6: a peer `electron_5` against a group whose
counter is already 5 — the member is created at index 5 and the counter is
bumped past it. -/
theorem C6_corresponding_member_witness :
    memberIndexOf "electron_5".toList = some 5 ∧
    ∃ g' m, Group.createCorrespondingGroupMember ⟨"electron".toList, [], 5, []⟩
        "electron_5".toList = some (g', m) ∧ m.index = 5 ∧
      5 < g'.groupElementIndex := by
  have h : memberIndexOf "electron_5".toList = some 5 := by decide
  obtain ⟨g', m, heq, hidx, _, _, hmono, _⟩ :=
    C6_corresponding_member ⟨"electron".toList, [], 5, []⟩ "electron_5".toList 5 h
  exact ⟨h, g', m, heq, hidx, hmono (by decide)⟩

namespace TandemSpec

/-! ## PhetioObject event stream — phetioEndEvent (src/unnamed/part_008)

`this.phetioMessageStack` is a JS array used as a stack (`push`/`pop` at the
end); it is modelled with the top of the stack at the head of the list.
Frames are the sequence ids returned by `dataStream.start`, or the
high-frequency sentinel. -/

/-- `const SKIPPING_HIGH_FREQUENCY_MESSAGE = -1` -/
def SKIPPING_HIGH_FREQUENCY_MESSAGE : Int := -1

/-- The per-object state that `phetioEndEvent` reads:
`this.phetioMessageStack` and `this.isPhetioInstrumented()`. -/
structure PhetioObjState where
  phetioMessageStack : List Int
  instrumented : Bool
deriving DecidableEq

/-- Modelled from the spec: the external data-stream sink (`dataStream`, from
the phet-io repository, not under src/).  Spec §4.7 gives its contract
`end(sequenceId)`, and §4.5/§7 make ending a sequence that was never started a
fatal protocol violation; popping an empty JS array yields `undefined`
(modelled `none`), so `dataStream.end(undefined)` is the fatal case.  The sink
call returns the sequence id it closed, `none` on the fatal path. -/
def dataStreamEnd : Option Int → Option Int
  | none => none
  | some seqId => some seqId

/-- `PhetioObject.prototype.phetioEndEvent`: pops the top frame
(`undefined` when the stack is empty); a popped
`SKIPPING_HIGH_FREQUENCY_MESSAGE` sentinel is a no-op; otherwise, when the
object is instrumented, `dataStream.end( topMessageIndex )` is invoked.
Returns the new state and the sequence id handed to the sink (`none` when no
sink call was made); `none` overall on the fatal path. -/
def phetioEndEvent (o : PhetioObjState) : Option (PhetioObjState × Option Int) :=
  match o.phetioMessageStack with
  | [] =>
    if o.instrumented then
      match dataStreamEnd none with
      | none => none
      | some i => some (o, some i)
    else some (o, none)
  | top :: rest =>
    let o' : PhetioObjState := { o with phetioMessageStack := rest }
    if top = SKIPPING_HIGH_FREQUENCY_MESSAGE then some (o', none)
    else if o.instrumented then
      match dataStreamEnd (some top) with
      | none => none
      | some i => some (o', some i)
    else some (o', none)

end TandemSpec

open TandemSpec in
/-- **C5.** For an instrumented object, `phetioEndEvent` pops the most recent
frame of the per-object event stack; a popped high-frequency sentinel is a
no-op (no sink call); any other frame is handed to the sink as the sequence id
to end; and calling it with an empty stack is fatal. -/
theorem C5_phetioEndEvent_stack (o : PhetioObjState) (hins : o.instrumented = true) :
    (o.phetioMessageStack = [] → phetioEndEvent o = none) ∧
    (∀ rest, o.phetioMessageStack = SKIPPING_HIGH_FREQUENCY_MESSAGE :: rest →
      phetioEndEvent o = some ({ o with phetioMessageStack := rest }, none)) ∧
    (∀ top rest, o.phetioMessageStack = top :: rest →
      top ≠ SKIPPING_HIGH_FREQUENCY_MESSAGE →
      phetioEndEvent o = some ({ o with phetioMessageStack := rest }, some top)) := by
  refine ⟨?_, ?_, ?_⟩
  · intro hempty
    simp [phetioEndEvent, hempty, hins, dataStreamEnd]
  · intro rest hstack
    simp [phetioEndEvent, hstack, SKIPPING_HIGH_FREQUENCY_MESSAGE]
  · intro top rest hstack htop
    simp [phetioEndEvent, hstack, htop, hins, dataStreamEnd]

open TandemSpec in
/-- Witness for C5: on the instrumented object with stack `[7, -1, 3]`,
ending pops `7` and hands it to the sink; on stack `[-1, 3]` the sentinel is
a no-op; on the empty stack the call is fatal. -/
theorem C5_phetioEndEvent_stack_witness :
    phetioEndEvent ⟨[7, -1, 3], true⟩ = some (⟨[-1, 3], true⟩, some 7) ∧
    phetioEndEvent ⟨[-1, 3], true⟩ = some (⟨[3], true⟩, none) ∧
    phetioEndEvent ⟨[], true⟩ = none := by
  refine ⟨?_, ?_, ?_⟩
  · exact (C5_phetioEndEvent_stack ⟨[7, -1, 3], true⟩ rfl).2.2 7 [-1, 3] rfl (by decide)
  · exact (C5_phetioEndEvent_stack ⟨[-1, 3], true⟩ rfl).2.1 [3] rfl
  · exact (C5_phetioEndEvent_stack ⟨[], true⟩ rfl).1 rfl

namespace TandemSpec

/-! ## Parametric IO-type factories (src/unnamed/part_001, src/js/PhetioGroupIO.js)

JS object identity is modelled by an allocation id: every evaluation of a
`class ... extends ObjectIO` / `phetioInherit` body yields a fresh object, so
two type objects are reference-equal iff they are the same record, allocation
id included.  Each factory module's `const cache = {}` is modelled as an
explicit association list threaded through the calls. -/

/-- A concrete IO type object: its `typeName` and its JS object identity. -/
structure IOTypeObj where
  typeName : List Char
  allocId : Nat
deriving DecidableEq

/-- The module-level state of one factory: its `cache` object plus the
allocator for fresh JS objects. -/
structure TypeCache where
  entries : List (List Char × IOTypeObj)
  nextId : Nat
deriving DecidableEq

/-- `cache.hasOwnProperty( key ) ? cache[ key ] : undefined`. -/
def lookupKey : List (List Char × IOTypeObj) → List Char → Option IOTypeObj
  | [], _ => none
  | (k, t) :: rest, key => if k = key then some t else lookupKey rest key

/-- `Array.prototype.join( ',' )` over a list of type names. -/
def joinComma (l : List (List Char)) : List Char :=
  (l.intersperse [',']).flatten

/-- FunctionIO's cache key:
`` `${returnType.typeName}.${functionParameterTypes.map( t => t.typeName ).join( ',' )}` ``. -/
def functionIOCacheKey (returnName : List Char) (paramNames : List (List Char)) :
    List Char :=
  returnName ++ '.' :: joinComma paramNames

/-- FunctionIO's synthesized type name:
`` `FunctionIO(${parameterTypes})=>${returnType.typeName}` ``. -/
def functionIOTypeName (returnName : List Char) (paramNames : List (List Char)) :
    List Char :=
  "FunctionIO(".toList ++ joinComma paramNames ++ ")=>".toList ++ returnName

/-- `function FunctionIO( returnType, functionParameterTypes )`: on a cache
miss, `create(...)` evaluates a fresh `class FunctionIOImpl` (a new JS
object) and stores it under the cache key; the cached object is returned. -/
def FunctionIOFn (st : TypeCache) (returnName : List Char)
    (paramNames : List (List Char)) : TypeCache × IOTypeObj :=
  let cacheKey := functionIOCacheKey returnName paramNames
  match lookupKey st.entries cacheKey with
  | some t => (st, t)
  | none =>
    let t : IOTypeObj := ⟨functionIOTypeName returnName paramNames, st.nextId⟩
    ({ entries := st.entries ++ [(cacheKey, t)], nextId := st.nextId + 1 }, t)

/-- PhetioGroupIO's synthesized type name:
`` `PhetioGroupIO<${parameterType.typeName}>` ``. -/
def groupIOTypeName (parameterName : List Char) : List Char :=
  "PhetioGroupIO<".toList ++ parameterName ++ ">".toList

/-- `function PhetioGroupIO( parameterType )`: cached under
`parameterType.typeName`; on a miss, `create( parameterType )` evaluates a
fresh `class PhetioGroupIOImpl`. -/
def PhetioGroupIOFn (st : TypeCache) (parameterName : List Char) :
    TypeCache × IOTypeObj :=
  match lookupKey st.entries parameterName with
  | some t => (st, t)
  | none =>
    let t : IOTypeObj := ⟨groupIOTypeName parameterName, st.nextId⟩
    ({ entries := st.entries ++ [(parameterName, t)], nextId := st.nextId + 1 }, t)

/-- `function ArrayIO( elementType )` (src/unnamed/part_001, lines 102-153):
there is *no* cache in this module — every call evaluates
`phetioInherit( ObjectIO, 'ArrayIO', ArrayIOImpl, ... )`, producing a brand
new type object whose type name is the constant `'ArrayIO'`.  The
`elementType` argument is stored on the object but does not participate in
its name or identity. -/
def ArrayIOFn (nextId : Nat) (_elementTypeName : List Char) : Nat × IOTypeObj :=
  (nextId + 1, ⟨"ArrayIO".toList, nextId⟩)

theorem lookupKey_append_self (es : List (List Char × IOTypeObj)) (k : List Char)
    (t : IOTypeObj) (h : lookupKey es k = none) :
    lookupKey (es ++ [(k, t)]) k = some t := by
  induction es with
  | nil => simp [lookupKey]
  | cons e rest ih =>
    obtain ⟨ek, et⟩ := e
    by_cases hek : ek = k
    · simp [lookupKey, hek] at h
    · simp only [lookupKey, if_neg hek] at h
      simp [lookupKey, hek, ih h]

end TandemSpec

open TandemSpec in
/-- **C2 counterexample.** The collection-of factory `ArrayIO` is *not*
memoizing: two calls with the same element type evaluate `phetioInherit`
twice and return two distinct (non-reference-equal) type objects. -/
theorem C2_arrayIO_counterexample :
    ArrayIOFn 0 "NumberIO".toList = (1, ⟨"ArrayIO".toList, 0⟩) ∧
    ArrayIOFn 1 "NumberIO".toList = (2, ⟨"ArrayIO".toList, 1⟩) ∧
    (ArrayIOFn 1 "NumberIO".toList).2 ≠ (ArrayIOFn 0 "NumberIO".toList).2 ∧
    (ArrayIOFn 1 "NumberIO".toList).2.typeName
      = (ArrayIOFn 0 "NumberIO".toList).2.typeName := by
  refine ⟨rfl, rfl, ?_, rfl⟩
  decide

open TandemSpec in
/-- **C2 (amended).** `FunctionIO` and `PhetioGroupIO` are referentially
memoizing — a second call with the same parameter type names returns the
exact same type object and leaves the cache unchanged — and on a cache miss
their synthesized type names are deterministically derived from the
parameter type names.  `ArrayIO` is not memoizing: every call returns a
fresh type object (with the constant type name `'ArrayIO'`), so repeated
calls are name-equal but never reference-equal. -/
theorem C2_parametric_memoization :
    (∀ (st : TypeCache) (r : List Char) (ps : List (List Char)),
      FunctionIOFn (FunctionIOFn st r ps).1 r ps = FunctionIOFn st r ps) ∧
    (∀ (st : TypeCache) (p : List Char),
      PhetioGroupIOFn (PhetioGroupIOFn st p).1 p = PhetioGroupIOFn st p) ∧
    (∀ (st : TypeCache) (r : List Char) (ps : List (List Char)),
      lookupKey st.entries (functionIOCacheKey r ps) = none →
        (FunctionIOFn st r ps).2.typeName = functionIOTypeName r ps) ∧
    (∀ (st : TypeCache) (p : List Char),
      lookupKey st.entries p = none →
        (PhetioGroupIOFn st p).2.typeName = groupIOTypeName p) ∧
    (∀ (n : Nat) (e : List Char),
      (ArrayIOFn n e).2.allocId = n ∧ (ArrayIOFn n e).1 = n + 1 ∧
      (ArrayIOFn (ArrayIOFn n e).1 e).2 ≠ (ArrayIOFn n e).2 ∧
      (ArrayIOFn (ArrayIOFn n e).1 e).2.typeName = (ArrayIOFn n e).2.typeName) := by
  refine ⟨?_, ?_, ?_, ?_, ?_⟩
  · intro st r ps
    cases hl : lookupKey st.entries (functionIOCacheKey r ps) with
    | some t => simp [FunctionIOFn, hl]
    | none =>
      simp [FunctionIOFn, hl,
        lookupKey_append_self st.entries (functionIOCacheKey r ps) _ hl]
  · intro st p
    cases hl : lookupKey st.entries p with
    | some t => simp [PhetioGroupIOFn, hl]
    | none =>
      simp [PhetioGroupIOFn, hl, lookupKey_append_self st.entries p _ hl]
  · intro st r ps hl
    simp [FunctionIOFn, hl]
  · intro st p hl
    simp [PhetioGroupIOFn, hl]
  · intro n e
    refine ⟨rfl, rfl, ?_, rfl⟩
    simp [ArrayIOFn]

open TandemSpec in
/-- Witness for the amended C2, from the empty caches:
`FunctionIO(VoidIO)=>VoidIO` and `PhetioGroupIO<TrackIO>` are memoized and
correctly named; two `ArrayIO` calls differ. -/
theorem C2_parametric_memoization_witness :
    (lookupKey (TypeCache.mk [] 0).entries
        (functionIOCacheKey "VoidIO".toList ["VoidIO".toList]) = none) ∧
    (FunctionIOFn ⟨[], 0⟩ "VoidIO".toList ["VoidIO".toList]).2.typeName
      = "FunctionIO(VoidIO)=>VoidIO".toList ∧
    FunctionIOFn (FunctionIOFn ⟨[], 0⟩ "VoidIO".toList ["VoidIO".toList]).1
        "VoidIO".toList ["VoidIO".toList]
      = FunctionIOFn ⟨[], 0⟩ "VoidIO".toList ["VoidIO".toList] ∧
    (lookupKey (TypeCache.mk [] 0).entries "TrackIO".toList = none) ∧
    (PhetioGroupIOFn ⟨[], 0⟩ "TrackIO".toList).2.typeName
      = "PhetioGroupIO<TrackIO>".toList ∧
    PhetioGroupIOFn (PhetioGroupIOFn ⟨[], 0⟩ "TrackIO".toList).1 "TrackIO".toList
      = PhetioGroupIOFn ⟨[], 0⟩ "TrackIO".toList ∧
    (ArrayIOFn (ArrayIOFn 0 "NumberIO".toList).1 "NumberIO".toList).2
      ≠ (ArrayIOFn 0 "NumberIO".toList).2 := by
  have h := C2_parametric_memoization
  have h1 : lookupKey (TypeCache.mk [] 0).entries
      (functionIOCacheKey "VoidIO".toList ["VoidIO".toList]) = none := rfl
  have h2 : lookupKey (TypeCache.mk [] 0).entries "TrackIO".toList = none := rfl
  refine ⟨h1, ?_, h.1 ⟨[], 0⟩ "VoidIO".toList ["VoidIO".toList], h2, ?_,
    h.2.1 ⟨[], 0⟩ "TrackIO".toList, (h.2.2.2.2 0 "NumberIO".toList).2.2.1⟩
  · rw [h.2.2.1 ⟨[], 0⟩ "VoidIO".toList ["VoidIO".toList] h1]
    decide
  · rw [h.2.2.2.1 ⟨[], 0⟩ "TrackIO".toList h2]
    decide

namespace TandemSpec

/-! ## Composite serialization — NullableIO (src/js/types/NullableIO.js) and
ArrayIO to/fromStateObject (src/unnamed/part_001)

JS runtime values exchanged with the state layer are modelled by `SVal`
(`null`, numbers, strings); an array value is a `List SVal`, so ArrayIO's
`Array.isArray` assertions are discharged by typing.  A parameter IO type is
abstract: just its pair of serialization directions. -/

/-- A dynamically-typed scalar state value. -/
inductive SVal where
  | null
  | num (n : Int)
  | str (s : List Char)
deriving DecidableEq

/-- A parameter IO type, reduced to its two serialization directions. -/
structure IOTypeSer where
  toStateObject : SVal → SVal
  fromStateObject : SVal → SVal

/-- `function NullableIO( parameterType )`: `toStateObject` maps `null` to
`null` and otherwise delegates to the parameter type; `fromStateObject`
symmetrically. -/
def NullableIOSer (parameterType : IOTypeSer) : IOTypeSer where
  toStateObject instanceV :=
    if instanceV = SVal.null then SVal.null
    else parameterType.toStateObject instanceV
  fromStateObject stateObject :=
    if stateObject = SVal.null then SVal.null
    else parameterType.fromStateObject stateObject

/-- `ArrayIO( elementType ).toStateObject`: serializes each element in order
(`for ( var i = 0; i < array.length; i++ ) json.push( ... )`). -/
def arrayIOToStateObject (elementType : IOTypeSer) (array : List SVal) :
    List SVal :=
  array.map elementType.toStateObject

/-- `ArrayIO( elementType ).fromStateObject`: deserializes each element in
order. -/
def arrayIOFromStateObject (elementType : IOTypeSer) (stateObject : List SVal) :
    List SVal :=
  stateObject.map elementType.fromStateObject

/-- An adversarial parameter type whose serialization swaps `null` and the
number `0` in both directions.  It is an involution, hence round-trips on
every value, yet serializes the non-null value `0` *to* `null`. -/
def swapNullZero (v : SVal) : SVal :=
  if v = SVal.null then SVal.num 0
  else if v = SVal.num 0 then SVal.null
  else v

/-- The swap function packaged as an IO type. -/
def swapSer : IOTypeSer := ⟨swapNullZero, swapNullZero⟩

end TandemSpec

open TandemSpec in
/-- **C8 counterexample.** The parameter type `swapSer` round-trips on every
value, but `NullableIO(swapSer)` does not: serializing the non-null value `0`
yields `null`, which deserializes back to `null`, not `0`.  The claim's
round-trip law for `NullableIO(T)` fails for a round-tripping `T`. -/
theorem C8_roundtrip_counterexample :
    (∀ x, swapSer.fromStateObject (swapSer.toStateObject x) = x) ∧
    (NullableIOSer swapSer).toStateObject (SVal.num 0) = SVal.null ∧
    (NullableIOSer swapSer).fromStateObject
        ((NullableIOSer swapSer).toStateObject (SVal.num 0)) = SVal.null ∧
    SVal.null ≠ SVal.num 0 := by
  refine ⟨?_, rfl, rfl, by decide⟩
  intro x
  by_cases h0 : x = SVal.null
  · subst h0; rfl
  · by_cases h1 : x = SVal.num 0
    · subst h1; rfl
    · show swapNullZero (swapNullZero x) = x
      unfold swapNullZero
      rw [if_neg h0, if_neg h1, if_neg h0, if_neg h1]

open TandemSpec in
/-- **C8 (amended).** For every parameter type `T` that round-trips *and*
never serializes a non-null value to `null`, `NullableIO(T)` maps `null` to
`null` in both directions, otherwise delegates both directions to `T`, and
round-trips; and for every round-tripping `T`, `ArrayIO(T)` serializes
element-wise preserving length and order, and round-trips exactly. -/
theorem C8_composite_roundtrip (p : IOTypeSer)
    (hrt : ∀ x, p.fromStateObject (p.toStateObject x) = x) :
    ((∀ x, x ≠ SVal.null → p.toStateObject x ≠ SVal.null) →
     ((NullableIOSer p).toStateObject SVal.null = SVal.null ∧
      (NullableIOSer p).fromStateObject SVal.null = SVal.null ∧
      (∀ v, v ≠ SVal.null →
        (NullableIOSer p).toStateObject v = p.toStateObject v) ∧
      (∀ s, s ≠ SVal.null →
        (NullableIOSer p).fromStateObject s = p.fromStateObject s) ∧
      (∀ v, (NullableIOSer p).fromStateObject
        ((NullableIOSer p).toStateObject v) = v))) ∧
    (∀ xs : List SVal,
      arrayIOToStateObject p xs = xs.map p.toStateObject ∧
      (arrayIOToStateObject p xs).length = xs.length ∧
      arrayIOFromStateObject p (arrayIOToStateObject p xs) = xs) := by
  refine ⟨fun hnn => ⟨rfl, rfl, ?_, ?_, ?_⟩, ?_⟩
  · intro v hv; simp [NullableIOSer, hv]
  · intro s hs; simp [NullableIOSer, hs]
  · intro v
    by_cases hv : v = SVal.null
    · subst hv; rfl
    · have hto := hnn v hv
      simp [NullableIOSer, hv, hto, hrt v]
  · intro xs
    refine ⟨rfl, by simp [arrayIOToStateObject], ?_⟩
    show (xs.map p.toStateObject).map p.fromStateObject = xs
    rw [List.map_map]
    have hfun : p.fromStateObject ∘ p.toStateObject = id := funext hrt
    rw [hfun, List.map_id]

open TandemSpec in
/-- Witness for the amended C8 with the identity parameter type: a nullable
number round-trips, and an array `[null, 1]` serializes element-wise and
round-trips. -/
theorem C8_composite_roundtrip_witness :
    (NullableIOSer ⟨fun v => v, fun v => v⟩).fromStateObject
        ((NullableIOSer ⟨fun v => v, fun v => v⟩).toStateObject (SVal.num 7))
      = SVal.num 7 ∧
    arrayIOToStateObject ⟨fun v => v, fun v => v⟩ [SVal.null, SVal.num 1]
      = [SVal.null, SVal.num 1] ∧
    arrayIOFromStateObject ⟨fun v => v, fun v => v⟩
        (arrayIOToStateObject ⟨fun v => v, fun v => v⟩ [SVal.null, SVal.num 1])
      = [SVal.null, SVal.num 1] := by
  have h := C8_composite_roundtrip ⟨fun v => v, fun v => v⟩ (fun x => rfl)
  exact ⟨(h.1 (fun x hx => hx)).2.2.2.2 (SVal.num 7),
    (h.2 [SVal.null, SVal.num 1]).1,
    (h.2 [SVal.null, SVal.num 1]).2.2⟩
